import Mathlib

/-!
Shallow embedding of the whisper-weave orchestration core
(`src/server/src/services/tool-executor.service.ts`,
`src/server/src/repositories/assistant.repository.ts` (plugin-manager part),
`src/server/src/services/scheduler.service.ts` (connector-handler part))
together with proofs about the spec's claims.

Effectful collaborator calls (LLM `generate`, tool handlers, connector
sends, persistence writes) are modelled as pure oracle functions plus an
explicit event trace; wall-clock time (`Date.now()` / `durationMs`) is
modelled as the constant 0; logging calls are omitted (pure observers).
-/

namespace WhisperWeave

/-! ### JavaScript `Map` model

JS `Map`s keyed by strings are modelled as association lists in insertion
order: `set` overwrites the (unique) existing binding in place or appends,
`get` returns the bound value, `delete` removes the binding. -/

def jsGet {α : Type} : List (String × α) → String → Option α
  | [], _ => none
  | (k', v) :: rest, k => if k' = k then some v else jsGet rest k

def jsSet {α : Type} : List (String × α) → String → α → List (String × α)
  | [], k, v => [(k, v)]
  | (k', v') :: rest, k, v =>
      if k' = k then (k, v) :: rest else (k', v') :: jsSet rest k v

def jsDelete {α : Type} : List (String × α) → String → List (String × α)
  | [], _ => []
  | (k', v') :: rest, k =>
      if k' = k then jsDelete rest k else (k', v') :: jsDelete rest k

/-! ### Data model (from `@whisper-weave/shared` `plugins.type.ts`) -/

/-- JavaScript runtime values (tool inputs/outputs are `unknown` in the
source); objects keep field insertion order. -/
inductive JSValue where
  | null
  | bool (b : Bool)
  | num (n : Int)
  | str (s : String)
  | arr (elems : List JSValue)
  | obj (fields : List (String × JSValue))

mutual

/-- Rendering used to model `JSON.stringify` on a `JSValue` (field order
preserved; string escaping not modelled). -/
def jsonStringify : JSValue → String
  | .null => "null"
  | .bool true => "true"
  | .bool false => "false"
  | .num n => toString n
  | .str s => "\"" ++ s ++ "\""
  | .arr elems => "[" ++ jsonStringifyArr elems ++ "]"
  | .obj fields => "\x7b" ++ jsonStringifyObj fields ++ "\x7d"

/-- Comma-separated rendering of a JSON array body. -/
def jsonStringifyArr : List JSValue → String
  | [] => ""
  | [v] => jsonStringify v
  | v :: rest => jsonStringify v ++ "," ++ jsonStringifyArr rest

/-- Comma-separated rendering of a JSON object body. -/
def jsonStringifyObj : List (String × JSValue) → String
  | [] => ""
  | [(k, v)] => "\"" ++ k ++ "\":" ++ jsonStringify v
  | (k, v) :: rest => "\"" ++ k ++ "\":" ++ jsonStringify v ++ "," ++ jsonStringifyObj rest

end

structure ToolParameter where
  name : String
  type : String
  description : String
  required : Bool
  enumVals : Option (List String) := none

/-- Handler-stripped tool schema (shared `Tool`). -/
structure Tool where
  name : String
  description : String
  parameters : List ToolParameter
  requiresApproval : Bool

structure Attachment where
  type : String
  url : String
  filename : String

structure Message where
  id : String
  platform : String
  channelId : String
  userId : String
  username : String
  content : String
  timestamp : Nat := 0
  attachments : List Attachment := []
  replyTo : Option String := none
  subject : Option String := none

structure ToolContext where
  userId : String
  channelId : String
  platform : String
  message : Message
  assistantId : Option String := none

/-- `ToolWithHandler`: schema plus executable handler. A handler that
throws is modelled as returning `.error` with the error message. -/
structure ToolWithHandler where
  name : String
  description : String
  parameters : List ToolParameter
  requiresApproval : Bool
  handler : JSValue → ToolContext → Except String JSValue

/-- `toTool`: strip the handler for serialization (e.g., sending to LLM). -/
def toTool (t : ToolWithHandler) : Tool :=
  { name := t.name, description := t.description,
    parameters := t.parameters, requiresApproval := t.requiresApproval }

/-- `toTools`: strip handlers from an array of `ToolWithHandler`. -/
def toTools (ts : List ToolWithHandler) : List Tool := ts.map toTool

structure ToolUse where
  id : String
  name : String
  input : JSValue

inductive Role where
  | user | assistant | system | tool
  deriving DecidableEq

structure LLMMessage where
  role : Role
  content : String
  toolUses : List ToolUse := []
  toolCallId : Option String := none
  toolName : Option String := none

/-- `LLMResponse`; an absent `toolUses` field is modelled as `[]` (the
source only ever tests `!response.toolUses?.length` and iterates). -/
structure LLMResponse where
  content : String
  toolUses : List ToolUse := []

structure GenOptions where
  temperature : Option Int := none
  maxTokens : Option Int := none
  tools : Option (List Tool) := none

/-- LLM capability: `generate` is modelled as a pure oracle from the model
id, message list and options to a response. -/
structure LLMCap where
  generate : String → List LLMMessage → GenOptions → LLMResponse

/-- Connector capability surface used by the embedded code; optional
methods are modelled as presence flags, `isConnected()` as `connected`. -/
structure ConnectorCap where
  platform : String := ""
  connected : Bool := false
  hasSendMessage : Bool := true
  hasSendTyping : Bool := false
  hasSendError : Bool := false

/-- A live plugin object. `objId` models JavaScript object identity
(needed to speak about "the same object" across registry operations);
`tools = some _` models `hasTools`, `llm = some _` models `hasLLM`,
`connector = some _` models `hasConnector`. -/
structure PluginBase where
  objId : Nat := 0
  tools : Option (List ToolWithHandler) := none
  requestApproval : Option (ToolWithHandler → JSValue → ToolContext → Bool) := none
  llm : Option LLMCap := none
  connector : Option ConnectorCap := none

abbrev Config := List (String × JSValue)

/-- Registry entry (`InstanceEntry` in the source). -/
structure InstanceEntry where
  id : String
  type : String
  name : String
  config : Config := []
  enabled : Bool
  plugin : PluginBase

abbrev PluginsMap := List (String × InstanceEntry)

structure ConversationToolUsage where
  toolName : String
  input : JSValue
  output : JSValue
  error : Option String
  durationMs : Nat := 0

/-! ### Tool Executor (`tool-executor.service.ts`) -/

/-- Observable effects of the tool-executor embedding. -/
inductive Event where
  | approvalRequested (toolName : String)
  | handlerInvoked (toolName : String)
  | generateCall (tools : Option (List Tool)) (response : LLMResponse)

structure ExecOutcome where
  result : Except String JSValue
  events : List Event

/-- `executeTool(instanceId, toolUse, context, plugins)`: resolve the
instance, find the named tool, optionally run the approval hook, then run
the handler. Thrown errors are `.error` values. -/
def executeTool (instanceId : String) (toolUse : ToolUse) (context : ToolContext)
    (plugins : PluginsMap) : ExecOutcome :=
  match jsGet plugins instanceId with
  | none => ⟨.error ("Plugin with tools not found: " ++ instanceId), []⟩
  | some entry =>
    match entry.plugin.tools with
    | none => ⟨.error ("Plugin with tools not found: " ++ instanceId), []⟩
    | some ts =>
      match ts.find? (fun t => t.name = toolUse.name) with
      | none => ⟨.error ("Tool not found: " ++ toolUse.name), []⟩
      | some tool =>
        match entry.plugin.requestApproval with
        | some hook =>
            if hook tool toolUse.input context then
              ⟨tool.handler toolUse.input context,
               [.approvalRequested toolUse.name, .handlerInvoked toolUse.name]⟩
            else
              ⟨.ok (.obj [("error", .str "Action was not approved")]),
               [.approvalRequested toolUse.name]⟩
        | none =>
            ⟨tool.handler toolUse.input context, [.handlerInvoked toolUse.name]⟩

def MAX_TOOL_LOOP_ITERATIONS : Nat := 10

structure GenerateWithToolsResult where
  response : LLMResponse
  toolUsages : List ConversationToolUsage

/-- Stringification of a tool result for the tool-role message:
`typeof result === 'string' ? result : JSON.stringify(result)`. -/
def stringifyResult : JSValue → String
  | .str s => s
  | v => jsonStringify v

/-- User-facing hint attached to a caught tool-handler error. -/
def toolErrorHint (toolName : String) : String :=
  "The tool \"" ++ toolName ++ "\" encountered a technical error. Please inform the user that there was a problem and suggest they try again later."

/-- The result/error pair produced for one requested tool use: synthesize
an unknown-tool result when the reverse index has no entry, otherwise run
`executeTool`, converting a thrown error (the `catch` branch) into the
structured failure object. Also returns the tool-executor events. -/
def toolCallResult (nameToInstanceId : List (String × String)) (actionContext : ToolContext)
    (plugins : PluginsMap) (toolUse : ToolUse) : JSValue × Option String × List Event :=
  match jsGet nameToInstanceId toolUse.name with
  | none =>
      (JSValue.obj [("error", .str ("Unknown tool: " ++ toolUse.name))],
       some ("Unknown tool: " ++ toolUse.name), ([] : List Event))
  | some instanceId =>
      let out := executeTool instanceId toolUse actionContext plugins
      match out.result with
      | .ok v => (v, none, out.events)
      | .error msg =>
          (JSValue.obj [("success", .bool false), ("error", .str msg),
                        ("message", .str (toolErrorHint toolUse.name))],
           some msg, out.events)

/-- One step of the inner `for (const toolUse of response.toolUses)` loop
of `generateWithTools`: compute the tool result, record one
`ConversationToolUsage`, and append one tool-role message. `durationMs`
(wall clock) is modelled as 0. The accumulator is
`(currentMessages, toolUsages, events so far)`. -/
def processToolUse (nameToInstanceId : List (String × String)) (actionContext : ToolContext)
    (plugins : PluginsMap)
    (acc : List LLMMessage × List ConversationToolUsage × List Event)
    (toolUse : ToolUse) :
    List LLMMessage × List ConversationToolUsage × List Event :=
  let (messages, usages, events) := acc
  let (result, error, newEvents) := toolCallResult nameToInstanceId actionContext plugins toolUse
  let content := stringifyResult result
  (messages ++ [{ role := .tool, content := content,
                  toolCallId := some toolUse.id, toolName := some toolUse.name }],
   usages ++ [{ toolName := toolUse.name, input := toolUse.input,
                output := result, error := error, durationMs := 0 }],
   events ++ newEvents)

/-- The assistant-role turn carrying the model's tool-use requests
(`content: response.content ?? ''`). -/
def assistantTurnOf (response : LLMResponse) : LLMMessage :=
  { role := .assistant, content := response.content, toolUses := response.toolUses }

/-- The `for (let iter = 0; iter < MAX_TOOL_LOOP_ITERATIONS; iter++)` loop
of `generateWithTools`, with the remaining iteration budget as fuel.
At fuel 0 the source issues one final `generate` with `tools: undefined`
and returns its response. Returns the result and the events of this loop
(each `generate` call is a `.generateCall` event carrying the options'
tools and the oracle's response). -/
def toolLoop (llm : LLMCap) (model : String) (genOptions options : GenOptions)
    (nameToInstanceId : List (String × String)) (actionContext : ToolContext)
    (plugins : PluginsMap) :
    Nat → List LLMMessage → List ConversationToolUsage →
    GenerateWithToolsResult × List Event
  | 0, currentMessages, toolUsages =>
      let finalResponse := llm.generate model currentMessages { options with tools := none }
      (⟨finalResponse, toolUsages⟩, [.generateCall none finalResponse])
  | fuel + 1, currentMessages, toolUsages =>
      let response := llm.generate model currentMessages genOptions
      let callEvent := Event.generateCall genOptions.tools response
      if response.toolUses.isEmpty then
        (⟨response, toolUsages⟩, [callEvent])
      else
        let step :=
          response.toolUses.foldl (processToolUse nameToInstanceId actionContext plugins)
            (currentMessages ++ [assistantTurnOf response], toolUsages, [])
        let later :=
          toolLoop llm model genOptions options nameToInstanceId actionContext plugins
            fuel step.1 step.2.1
        (later.1, callEvent :: (step.2.2 ++ later.2))

/-- `generateWithTools(providerId, model, messages, tools, nameToInstanceId,
actionContext, plugins, options)`: resolve the provider to a live, enabled
LLM instance (else throw), copy the caller's messages, attach the tool
schemas (or `undefined` when the list is empty) and run the bounded loop. -/
def generateWithTools (providerId model : String) (messages : List LLMMessage)
    (tools : List Tool) (nameToInstanceId : List (String × String))
    (actionContext : ToolContext) (plugins : PluginsMap)
    (options : GenOptions := {}) :
    Except String GenerateWithToolsResult × List Event :=
  match jsGet plugins providerId with
  | none => (.error "LLM provider not found or disabled", [])
  | some providerEntry =>
      if !providerEntry.enabled then (.error "LLM provider not found or disabled", [])
      else
        match providerEntry.plugin.llm with
        | none => (.error "LLM provider not found or disabled", [])
        | some llm =>
            let genOptions := { options with
              tools := if tools.length > 0 then some tools else none }
            let looped :=
              toolLoop llm model genOptions options nameToInstanceId actionContext
                plugins MAX_TOOL_LOOP_ITERATIONS messages []
            (.ok looped.1, looped.2)

/-! ### Tool Resolution (`plugin-manager.service.ts`) -/

/-- Body of the `for (const id of actionIds)` loop of
`getToolsForActionIds`: skip an absent or disabled or tool-less instance,
otherwise append its handler-stripped schemas and record each tool
name → instance id in the reverse index. -/
def resolveStep (plugins : PluginsMap) (acc : List Tool × List (String × String))
    (id : String) : List Tool × List (String × String) :=
  match jsGet plugins id with
  | none => acc
  | some entry =>
      if !entry.enabled then acc
      else
        match entry.plugin.tools with
        | none => acc
        | some pluginTools =>
            (acc.1 ++ toTools pluginTools,
             pluginTools.foldl (fun m t => jsSet m t.name id) acc.2)

/-- `getToolsForActionIds(actionIds)`: fold `resolveStep` over the
requested provider ids, starting from an empty schema list and reverse
index. -/
def getToolsForActionIds (actionIds : List String) (plugins : PluginsMap) :
    List Tool × List (String × String) :=
  actionIds.foldl (resolveStep plugins) ([], [])

/-- JavaScript `x ?? y` on optionals (also `Option.or`, inlined here). -/
def optionOr {α : Type} : Option α → Option α → Option α
  | some x, _ => some x
  | none, y => y

/-- `getAllEnabledPluginWithToolIds()`: ids of enabled instances exposing
the Tooling capability, in map insertion order. -/
def getAllEnabledPluginWithToolIds (plugins : PluginsMap) : List String :=
  (plugins.filter fun p => p.2.enabled && p.2.plugin.tools.isSome).map (·.1)

/-! ### `generateWithProvider` (`plugin-manager.service.ts`) -/

/-- Options bag of `generateWithProvider`; `toolNameToInstanceId` and
`actionContext` are optional fields of the same TS object. -/
structure GWPOptions where
  temperature : Option Int := none
  maxTokens : Option Int := none
  tools : Option (List Tool) := none
  toolNameToInstanceId : Option (List (String × String)) := none
  actionContext : Option ToolContext := none

/-- Projection of the options object as consumed by `llm.generate` /
`generateWithTools` (extra fields are ignored there). -/
def GWPOptions.toGenOptions (o : GWPOptions) : GenOptions :=
  { temperature := o.temperature, maxTokens := o.maxTokens, tools := o.tools }

/-- Truthiness of `!tools?.length`: `true` when the field is absent or the
list is empty. -/
def toolsLenFalsy : Option (List Tool) → Bool
  | none => true
  | some l => l.isEmpty

/-- The synthetic web `ToolContext` built for in-app chat when no
`actionContext` was passed. -/
def webActionContext : ToolContext :=
  { userId := "web", channelId := "web", platform := "web",
    message := { id := "web", platform := "web", channelId := "web",
                 userId := "web", username := "user", content := "" } }

/-- `generateWithProvider(instanceId, model, messages, options)`: resolve
an enabled LLM instance; when tools or the reverse index were not
supplied, fall back to the tools of all enabled tool plugins (for the
connector flow when a context was given, and for in-app chat with a
synthetic web context otherwise); run the tool loop when tools, index and
context are all present and the tool list is non-empty, else a plain
`llm.generate`. -/
def generateWithProvider (instanceId model : String) (messages : List LLMMessage)
    (options : Option GWPOptions) (plugins : PluginsMap) :
    Except String LLMResponse × List Event :=
  match jsGet plugins instanceId with
  | none => (.error "LLM provider not found", [])
  | some entry =>
    match entry.plugin.llm with
    | none => (.error "LLM provider not found", [])
    | some llm =>
      if !entry.enabled then (.error "LLM provider is disabled", [])
      else
        let opts := options.getD {}
        let tools0 := opts.tools
        let idx0 := opts.toolNameToInstanceId
        let ctx0 := opts.actionContext
        let (tools1, idx1) :=
          if ctx0.isSome && (toolsLenFalsy tools0 || idx0.isNone) then
            let pluginIds := getAllEnabledPluginWithToolIds plugins
            if pluginIds.length > 0 then
              let built := getToolsForActionIds pluginIds plugins
              (some built.1, some built.2)
            else (tools0, idx0)
          else (tools0, idx0)
        let (tools2, idx2, ctx2) :=
          if ctx0.isNone && (toolsLenFalsy tools1 || idx1.isNone) then
            let pluginIds := getAllEnabledPluginWithToolIds plugins
            let built := getToolsForActionIds pluginIds plugins
            if built.1.length > 0 then
              (some (tools1.getD [] ++ built.1),
               some (built.2.foldl (fun m p => jsSet m p.1 p.2) (idx1.getD [])),
               some webActionContext)
            else (tools1, idx1, ctx0)
          else (tools1, idx1, ctx0)
        match tools2, idx2, ctx2 with
        | some ts, some idx, some ctx =>
            if ts.length > 0 then
              match generateWithTools instanceId model messages ts idx ctx plugins
                      opts.toGenOptions with
              | (.ok result, events) => (.ok result.response, events)
              | (.error e, events) => (.error e, events)
            else
              let resp := llm.generate model messages opts.toGenOptions
              (.ok resp, [.generateCall opts.tools resp])
        | _, _, _ =>
            let resp := llm.generate model messages opts.toGenOptions
            (.ok resp, [.generateCall opts.tools resp])

/-! ### Instance Registry (`plugin-manager.service.ts`, `addPlugin`) -/

/-- Lifecycle effects of registry operations, tagged by the JavaScript
object identity (`PluginBase.objId`) of the plugin they act upon. -/
inductive RegEvent where
  | disconnect (objId : Nat)
  | shutdown (objId : Nat)
  | construct (objId : Nat)
  | wireOnMessage (objId : Nat)
  | connect (objId : Nat)
  deriving DecidableEq

structure RegState where
  plugins : PluginsMap
  nextObjId : Nat
  events : List RegEvent

/-- Teardown of an existing entry before replacement: disconnect its
connector when connected, then `shutdown()`. -/
def teardownExisting (existing : InstanceEntry) : List RegEvent :=
  (match existing.plugin.connector with
   | some c => if c.connected then [RegEvent.disconnect existing.plugin.objId] else []
   | none => []) ++ [RegEvent.shutdown existing.plugin.objId]

/-- `addPlugin(type, config, instanceId)`: look up the catalog entry (a
`(type, name)` pair), tear down and evict any existing instance under the
same id, construct the replacement via the injected plugin factory (the
registry model stamps a fresh `objId` on the constructed object), install
it enabled, and for connector plugins wire the inbound-message callback
and issue `connect()` (fire and forget). -/
def addPlugin (catalog : List (String × String)) (factory : String → Config → PluginBase)
    (type : String) (config : Config) (instanceId : String) (st : RegState) :
    Except String (RegState × InstanceEntry) :=
  match catalog.find? (fun c => c.1 = type) with
  | none => .error ("Plugin not found in catalog: " ++ type)
  | some catalogEntry =>
      let id := instanceId
      let st :=
        match jsGet st.plugins id with
        | some existing =>
            { st with events := st.events ++ teardownExisting existing,
                      plugins := jsDelete st.plugins id }
        | none => st
      let plugin : PluginBase := { factory type config with objId := st.nextObjId }
      let st := { st with nextObjId := st.nextObjId + 1,
                          events := st.events ++ [RegEvent.construct plugin.objId] }
      let entry : InstanceEntry :=
        { id := id, type := type, name := catalogEntry.2, config := config,
          enabled := true, plugin := plugin }
      let st := { st with plugins := jsSet st.plugins id entry }
      let st :=
        match plugin.connector with
        | some _ =>
            { st with events := st.events ++
                [.wireOnMessage plugin.objId, .connect plugin.objId] }
        | none => st
      .ok (st, entry)

/-! ### Channel Message Handler (`connector-handler.service.ts`) -/

def MAX_CACHED_MESSAGES : Nat := 30

/-- Assistant configuration record; `none` in `llmProvider` / `llmModel`
models a falsy (absent or empty) value. -/
structure AssistantRec where
  id : String
  llmProvider : Option String
  llmModel : Option String
  systemPrompt : Option String := none
  tools : List String := []

/-- Observable effects of the channel message handler. -/
inductive HEvent where
  | sendTyping
  | typingStarted
  | typingStopped
  | sendMessage (channelId : String) (content : String)
  | sendError (channelId : String) (errorMessage : String)
  | persist
  deriving DecidableEq

abbrev ConnectorCache := List (String × List LLMMessage)

/-- Result of one handler run: the updated rolling-context cache, the
emitted events, and whether the typing-indicator interval is still
non-null (armed) when the function exits. -/
structure HandlerOutcome where
  cache : ConnectorCache
  events : List HEvent
  typingActiveAtExit : Bool

/-- Check `!assistant?.llmProvider || !assistant?.llmModel`. -/
def assistantProviderModel : Option AssistantRec → Option (AssistantRec × String × String)
  | none => none
  | some a =>
      match a.llmProvider, a.llmModel with
      | some p, some m => some (a, p, m)
      | _, _ => none

/-- User content with inbound image attachment URLs appended, as built by
the handler. -/
def buildUserContent (message : Message) : String :=
  let incomingImageAttachments := message.attachments.filter
    (fun a => a.type = "image" || a.type.startsWith "image/")
  if incomingImageAttachments.isEmpty then message.content
  else
    let urls := String.intercalate "\n" (incomingImageAttachments.map (·.url))
    if message.content.trim ≠ "" then
      message.content ++ "\n\n[IMAGE URL(s) — You MUST pass one of these exact URLs as imageUrl when calling img2img or img2txt. Do NOT use example.com or any other placeholder.]\n" ++ urls
    else
      "[User sent image(s). You MUST pass one of these exact URLs as imageUrl when calling img2img or img2txt. Do NOT use example.com or any placeholder.]\n" ++ urls

def notConfiguredNotice : String :=
  "No assistant is configured for this bot. Configure one in the web UI (Assistants page)."

/-- The cache update of the success path: re-read the cached list, append
the new user and assistant messages, and keep only the last
`MAX_CACHED_MESSAGES` entries when the cap is exceeded (`slice(-MAX)`). -/
def rollCache (cache : ConnectorCache) (cacheKey : String)
    (newUserMessage assistantMessage : LLMMessage) : ConnectorCache :=
  let nextCached0 := ((jsGet cache cacheKey).getD []) ++ [newUserMessage, assistantMessage]
  let nextCached :=
    if nextCached0.length > MAX_CACHED_MESSAGES then
      nextCached0.drop (nextCached0.length - MAX_CACHED_MESSAGES)
    else nextCached0
  jsSet cache cacheKey nextCached

/-- `handleConnectorMessage(entry, message, plugins, getToolsForActionIds)`.
External collaborators are oracles: `connectorRecordAssistant` models
`pluginRepository.getOne(entry.id)?.assistant` and `assistantDb` models
`assistantRepository.getOne`. Connector sends and persistence writes are
events; the attachment assembly from tool outputs only shapes the sent
payload and is not referenced by any verified claim, so the `sendMessage`
event carries channel id and content. The source always includes one
system message (its `systemPromps` array has length 1); `durationMs` and
logging are not modelled. The typing-indicator interval is the
`typingActive` flag; the source clears it only in the `catch` branch. -/
def handleConnectorMessage (entry : InstanceEntry) (message : Message)
    (plugins : PluginsMap)
    (connectorRecordAssistant : Option String)
    (assistantDb : String → Option AssistantRec)
    (cache : ConnectorCache) : HandlerOutcome :=
  if !entry.enabled then ⟨cache, [], false⟩
  else
    match entry.plugin.connector with
    | none => ⟨cache, [], false⟩
    | some connector =>
      let assistant :=
        match connectorRecordAssistant with
        | some assistantId => assistantDb assistantId
        | none => none
      match assistantProviderModel assistant with
      | none =>
          ⟨cache,
           if connector.hasSendMessage then
             [.sendMessage message.channelId notConfiguredNotice]
           else [], false⟩
      | some (a, llmProvider, llmModel) =>
          let (tools, nameToInstanceId) := getToolsForActionIds a.tools plugins
          let (typingActive, events) :=
            if connector.hasSendTyping then
              (true, [HEvent.sendTyping, HEvent.typingStarted])
            else (false, ([] : List HEvent))
          let userContent := buildUserContent message
          let cacheKey := entry.id ++ ":" ++ message.channelId
          let cached0 := (jsGet cache cacheKey).getD []
          let cached :=
            if cached0.length > MAX_CACHED_MESSAGES then
              cached0.drop (cached0.length - MAX_CACHED_MESSAGES)
            else cached0
          let newUserMessage : LLMMessage := { role := .user, content := userContent }
          let systemContent := (a.systemPrompt.map (·.trim)).getD ""
          let llmMessages :=
            [({ role := Role.system, content := systemContent } : LLMMessage)] ++
              cached ++ [newUserMessage]
          let actionContext : ToolContext :=
            { userId := message.userId, channelId := message.channelId,
              platform := message.platform, message := message,
              assistantId := some a.id }
          match (generateWithTools llmProvider llmModel llmMessages tools
                   nameToInstanceId actionContext plugins).1 with
          | .error errorMessage =>
              let events := events ++ (if typingActive then [HEvent.typingStopped] else [])
              let events := events ++
                (if connector.hasSendError then
                   [HEvent.sendError message.channelId errorMessage]
                 else if connector.hasSendMessage then
                   [HEvent.sendMessage message.channelId ("Error: " ++ errorMessage)]
                 else [])
              ⟨cache, events, false⟩
          | .ok result =>
              let response := result.response
              let events := events ++
                (if connector.hasSendMessage then
                   [HEvent.sendMessage message.channelId response.content]
                 else [])
              let cache := rollCache cache cacheKey newUserMessage
                { role := Role.assistant, content := response.content }
              let events := events ++ [HEvent.persist]
              ⟨cache, events, typingActive⟩

/-! ### Mutable-array model of `generateWithTools`

The source manipulates JavaScript arrays: `[...messages]` copies the
caller's array, `currentMessages = [...currentMessages, turn]` rebinds to
a fresh array, and `currentMessages.push(msg)` mutates in place. To state
the frame property (the caller's array is never mutated), arrays live in
an explicit store of array cells addressed by handles; `alloc` models an
array literal, `push` models in-place mutation of one cell. -/

structure ArrayStore where
  arrays : List (List LLMMessage)

def ArrayStore.alloc (st : ArrayStore) (xs : List LLMMessage) : ArrayStore × Nat :=
  (⟨st.arrays ++ [xs]⟩, st.arrays.length)

def ArrayStore.read (st : ArrayStore) (h : Nat) : List LLMMessage :=
  st.arrays.getD h []

def ArrayStore.push (st : ArrayStore) (h : Nat) (x : LLMMessage) : ArrayStore :=
  ⟨st.arrays.set h (st.read h ++ [x])⟩

/-- Store-level counterpart of `processToolUse`: the tool-role message is
pushed (mutation) onto the `currentMessages` cell `hCur`. -/
def processToolUseST (nameToInstanceId : List (String × String)) (actionContext : ToolContext)
    (plugins : PluginsMap) (hCur : Nat)
    (acc : ArrayStore × List ConversationToolUsage) (toolUse : ToolUse) :
    ArrayStore × List ConversationToolUsage :=
  let (store, usages) := acc
  let (result, error, _) := toolCallResult nameToInstanceId actionContext plugins toolUse
  let content := stringifyResult result
  (store.push hCur
     { role := .tool, content := content,
       toolCallId := some toolUse.id, toolName := some toolUse.name },
   usages ++ [{ toolName := toolUse.name, input := toolUse.input,
                output := result, error := error, durationMs := 0 }])

/-- Store-level counterpart of `toolLoop`: each iteration rebinds
`currentMessages` to a freshly allocated array extended with the
assistant turn, then pushes tool-result messages onto that fresh cell. -/
def toolLoopST (llm : LLMCap) (model : String) (genOptions options : GenOptions)
    (nameToInstanceId : List (String × String)) (actionContext : ToolContext)
    (plugins : PluginsMap) :
    Nat → ArrayStore → Nat → List ConversationToolUsage →
    ArrayStore × GenerateWithToolsResult
  | 0, store, hCur, toolUsages =>
      (store,
       ⟨llm.generate model (store.read hCur) { options with tools := none }, toolUsages⟩)
  | fuel + 1, store, hCur, toolUsages =>
      let response := llm.generate model (store.read hCur) genOptions
      if response.toolUses.isEmpty then (store, ⟨response, toolUsages⟩)
      else
        let allocated := store.alloc (store.read hCur ++ [assistantTurnOf response])
        let step :=
          response.toolUses.foldl
            (processToolUseST nameToInstanceId actionContext plugins allocated.2)
            (allocated.1, toolUsages)
        toolLoopST llm model genOptions options nameToInstanceId actionContext plugins
          fuel step.1 allocated.2 step.2

/-- Store-level counterpart of `generateWithTools`: the caller's message
array is the cell `hMessages`; the first action after provider resolution
is the copy `currentMessages = [...messages]`. -/
def generateWithToolsST (providerId model : String) (store : ArrayStore) (hMessages : Nat)
    (tools : List Tool) (nameToInstanceId : List (String × String))
    (actionContext : ToolContext) (plugins : PluginsMap)
    (options : GenOptions := {}) :
    ArrayStore × Except String GenerateWithToolsResult :=
  match jsGet plugins providerId with
  | none => (store, .error "LLM provider not found or disabled")
  | some providerEntry =>
      if !providerEntry.enabled then (store, .error "LLM provider not found or disabled")
      else
        match providerEntry.plugin.llm with
        | none => (store, .error "LLM provider not found or disabled")
        | some llm =>
            let allocated := store.alloc (store.read hMessages)
            let genOptions := { options with
              tools := if tools.length > 0 then some tools else none }
            let looped :=
              toolLoopST llm model genOptions options nameToInstanceId actionContext
                plugins MAX_TOOL_LOOP_ITERATIONS allocated.1 allocated.2 []
            (looped.1, .ok looped.2)

/-! ### Observation helpers used by the theorems -/

def isGenerateCall : Event → Bool
  | .generateCall _ _ => true
  | _ => false

/-- Number of `generate` calls recorded in a trace. -/
def genCallCount (events : List Event) : Nat :=
  (events.filter isGenerateCall).length

/-- Whether a `generate`-call event's response carries tool-use requests. -/
def callHasToolUses : Event → Bool
  | .generateCall _ response => !response.toolUses.isEmpty
  | _ => false

def isHandlerInvoked : Event → Bool
  | .handlerInvoked _ => true
  | _ => false

/-- Number of tool-handler invocations recorded in a trace. -/
def handlerInvokedCount (events : List Event) : Nat :=
  (events.filter isHandlerInvoked).length

/-- The last `n` elements of a list (`slice(-n)`). -/
def takeLastN {α : Type} (n : Nat) (l : List α) : List α :=
  l.drop (l.length - n)

/-- The tools an id contributes during tool resolution: empty when the
instance is absent, disabled, or lacks the Tooling capability. -/
def qualifyingTools (plugins : PluginsMap) (id : String) : List ToolWithHandler :=
  match jsGet plugins id with
  | some entry => if entry.enabled then entry.plugin.tools.getD [] else []
  | none => []

/-- Whether an id contributes a tool of the given name during resolution. -/
def declaresToolName (plugins : PluginsMap) (name : String) (id : String) : Bool :=
  (qualifyingTools plugins id).any (fun t => t.name == name)

/-- Number of entries under a key (JS `Map`s keep this at most 1). -/
def keyCount {α : Type} (m : List (String × α)) (k : String) : Nat :=
  m.countP (fun p => p.1 == k)

/-! ### Concrete fixtures for witnesses and counterexamples -/

def fxMessage : Message :=
  { id := "m1", platform := "discord", channelId := "chan",
    userId := "u1", username := "alice", content := "hello" }

def fxContext : ToolContext :=
  { userId := "u1", channelId := "chan", platform := "discord", message := fxMessage }

/-- A tool whose handler returns the marker string `"ran"`. -/
def fxEchoTool : ToolWithHandler :=
  { name := "echo", description := "echo", parameters := [], requiresApproval := false,
    handler := fun _ _ => .ok (.str "ran") }

/-- A tool whose handler throws. -/
def fxThrowTool : ToolWithHandler :=
  { name := "boom", description := "throws", parameters := [], requiresApproval := false,
    handler := fun _ _ => .error "kaboom" }

/-- An LLM oracle that never requests tools. -/
def fxLLMPlain : LLMCap := ⟨fun _ _ _ => { content := "hi" }⟩

/-- An LLM oracle that always requests a tool use. -/
def fxLLMLoopy : LLMCap :=
  ⟨fun _ _ _ => { content := "", toolUses := [⟨"1", "echo", .null⟩] }⟩

def hasToolRoleMessage (messages : List LLMMessage) : Bool :=
  messages.any fun m => match m.role with | .tool => true | _ => false

/-- An LLM oracle that requests `echo` once, then answers `"done"` after a
tool-role message appears in the history. -/
def fxLLMOnce : LLMCap :=
  ⟨fun _ messages _ =>
    if hasToolRoleMessage messages then { content := "done" }
    else { content := "", toolUses := [⟨"1", "echo", .null⟩] }⟩

def fxProviderEntry : InstanceEntry :=
  { id := "p", type := "llm", name := "Provider", enabled := true,
    plugin := { llm := some fxLLMOnce } }

def fxPlainProviderEntry : InstanceEntry :=
  { id := "p", type := "llm", name := "Provider", enabled := true,
    plugin := { llm := some fxLLMPlain } }

def fxToolEntry : InstanceEntry :=
  { id := "t1", type := "tools", name := "Tools", enabled := true,
    plugin := { tools := some [fxEchoTool] } }

def fxDisabledToolEntry : InstanceEntry :=
  { id := "t1", type := "tools", name := "Tools", enabled := false,
    plugin := { tools := some [fxEchoTool] } }

/-- Registry with one enabled provider (`"p"`) and one enabled tool
plugin (`"t1"`). -/
def fxPluginsPT : PluginsMap := [("p", fxProviderEntry), ("t1", fxToolEntry)]

/-- Registry whose only tool plugin is disabled. -/
def fxPluginsDisabledTool : PluginsMap :=
  [("p", fxPlainProviderEntry), ("t1", fxDisabledToolEntry)]

/-- Registry with just an enabled plain provider. -/
def fxPluginsProvider : PluginsMap := [("p", fxPlainProviderEntry)]

/-- A connector-capable entry bound to id `"c1"`, with `sendMessage` and
`sendTyping` but no `sendError`. -/
def fxConnectorEntry : InstanceEntry :=
  { id := "c1", type := "discord", name := "Discord", enabled := true,
    plugin := { connector := some { platform := "discord", hasSendTyping := true } } }

/-- Assistant lookup: `"a1"` is configured with provider `"p"`, model `"m"`. -/
def fxAssistantDb : String → Option AssistantRec := fun assistantId =>
  if assistantId = "a1" then
    some { id := "a1", llmProvider := some "p", llmModel := some "m" }
  else none

/-- Catalog with one plugin type. -/
def fxCatalog : List (String × String) := [("discord", "Discord")]

/-- Factory producing a connector-capable plugin object. -/
def fxFactory : String → Config → PluginBase :=
  fun _ _ => { connector := some { platform := "discord" } }

/-- An existing registry entry whose connector is connected (objId 3). -/
def fxOldEntry : InstanceEntry :=
  { id := "c1", type := "discord", name := "Discord", enabled := true,
    plugin := { objId := 3, connector := some { platform := "discord", connected := true } } }

/-- Registry state holding `fxOldEntry` under id `"c1"`. -/
def fxRegState : RegState :=
  { plugins := [("c1", fxOldEntry)], nextObjId := 5, events := [] }

/-- A tool plugin whose approval hook always denies. -/
def fxDenyingEntry : InstanceEntry :=
  { id := "t2", type := "tools", name := "Tools", enabled := true,
    plugin := { tools := some [fxEchoTool],
                requestApproval := some (fun _ _ _ => false) } }

def fxPluginsDenying : PluginsMap := [("t2", fxDenyingEntry)]

/-! ## Theorems -/

/-! ### JS map lemmas -/

theorem jsGet_jsSet_self {α : Type} (m : List (String × α)) (k : String) (v : α) :
    jsGet (jsSet m k v) k = some v := by
  induction m with
  | nil => simp [jsSet, jsGet]
  | cons hd tl ih =>
      obtain ⟨k', v'⟩ := hd
      by_cases h : k' = k
      · simp [jsSet, jsGet, h]
      · simp [jsSet, jsGet, h, ih]

theorem jsGet_jsSet_ne {α : Type} (m : List (String × α)) (k k' : String) (v : α)
    (h : k' ≠ k) : jsGet (jsSet m k v) k' = jsGet m k' := by
  have hkk : ¬ (k = k') := fun hh => h hh.symm
  induction m with
  | nil => simp [jsSet, jsGet, hkk]
  | cons hd tl ih =>
      obtain ⟨k₀, v₀⟩ := hd
      by_cases h0 : k₀ = k
      · subst h0
        simp [jsSet, jsGet, hkk]
      · simp [jsSet, jsGet, h0, ih]

/-! ### Claim C6 — approval gate in `executeTool` -/

/-- C6: for a tool whose owning instance declares an approval hook,
`executeTool` calls the hook with `(tool, input, context)` before any
execution; a `false` answer short-circuits with exactly the object
having the single field `error = "Action was not approved"`, as a normal
return value, and the handler is never invoked (the trace holds no
`handlerInvoked` event);
with an approving hook or no hook the handler's result is returned
verbatim. -/
theorem claim6_approval_gate (instanceId : String) (toolUse : ToolUse)
    (context : ToolContext) (plugins : PluginsMap) (entry : InstanceEntry)
    (ts : List ToolWithHandler) (tool : ToolWithHandler)
    (hget : jsGet plugins instanceId = some entry)
    (htools : entry.plugin.tools = some ts)
    (hfind : ts.find? (fun t => t.name = toolUse.name) = some tool) :
    (∀ hook, entry.plugin.requestApproval = some hook →
       (hook tool toolUse.input context = false →
          executeTool instanceId toolUse context plugins =
            ⟨.ok (.obj [("error", .str "Action was not approved")]),
             [.approvalRequested toolUse.name]⟩) ∧
       (hook tool toolUse.input context = true →
          executeTool instanceId toolUse context plugins =
            ⟨tool.handler toolUse.input context,
             [.approvalRequested toolUse.name, .handlerInvoked toolUse.name]⟩)) ∧
    (entry.plugin.requestApproval = none →
       executeTool instanceId toolUse context plugins =
         ⟨tool.handler toolUse.input context, [.handlerInvoked toolUse.name]⟩) := by
  refine ⟨fun hook hhook => ⟨fun hfalse => ?_, fun htrue => ?_⟩, fun hnone => ?_⟩
  · simp [executeTool, hget, htools, hfind, hhook, hfalse]
  · simp [executeTool, hget, htools, hfind, hhook, htrue]
  · simp [executeTool, hget, htools, hfind, hnone]

/-- Witness for C6 at a concrete denying instance. -/
theorem claim6_approval_gate_witness :
    executeTool "t2" ⟨"1", "echo", .null⟩ fxContext fxPluginsDenying =
      ⟨.ok (.obj [("error", .str "Action was not approved")]),
       [.approvalRequested "echo"]⟩ :=
  ((claim6_approval_gate "t2" ⟨"1", "echo", .null⟩ fxContext fxPluginsDenying
      fxDenyingEntry [fxEchoTool] fxEchoTool rfl rfl rfl).1
    (fun _ _ _ => false) rfl).1 rfl

/-! ### Claim C7 — disabled instances and dispatch -/

/-- C7 counterexample: `executeTool` does not consult the `enabled` flag:
on a registry whose instance `"t1"` is disabled but declares `echo`, the
handler is invoked and its result returned. -/
theorem claim7_counterexample :
    (executeTool "t1" ⟨"1", "echo", .null⟩ fxContext fxPluginsDisabledTool).result =
        .ok (.str "ran") ∧
    (executeTool "t1" ⟨"1", "echo", .null⟩ fxContext fxPluginsDisabledTool).events =
        [.handlerInvoked "echo"] ∧
    (jsGet fxPluginsDisabledTool "t1").map InstanceEntry.enabled = some false :=
  ⟨rfl, rfl, rfl⟩

/-! ### Claim C2 — tool failure isolation -/

/-- C2: for every requested tool use, exactly one `ConversationToolUsage`
is recorded and exactly one tool-role message (stringified result,
`toolCallId`, `toolName`) is appended; when the name is absent from the
reverse index the result is the synthesized unknown-tool object with the
usage's `error` set; when the handler (or `executeTool`) throws, the error
is converted to the structured failure object with `error` set; and, for
every resolvable enabled provider, `generateWithTools` returns a result
(never propagates a tool failure as an exception). -/
theorem claim2_tool_failure_isolation :
    (∀ (nameToInstanceId : List (String × String)) (actionContext : ToolContext)
       (plugins : PluginsMap) (messages : List LLMMessage)
       (usages : List ConversationToolUsage) (events : List Event) (toolUse : ToolUse),
       ∃ result error,
         processToolUse nameToInstanceId actionContext plugins
             (messages, usages, events) toolUse =
           (messages ++ [{ role := .tool, content := stringifyResult result,
                           toolCallId := some toolUse.id, toolName := some toolUse.name }],
            usages ++ [{ toolName := toolUse.name, input := toolUse.input, output := result,
                         error := error, durationMs := 0 }],
            events ++ (toolCallResult nameToInstanceId actionContext plugins toolUse).2.2) ∧
         (jsGet nameToInstanceId toolUse.name = none →
            result = .obj [("error", .str ("Unknown tool: " ++ toolUse.name))] ∧
            error = some ("Unknown tool: " ++ toolUse.name)) ∧
         (∀ instanceId msg, jsGet nameToInstanceId toolUse.name = some instanceId →
            (executeTool instanceId toolUse actionContext plugins).result = .error msg →
            error = some msg ∧
            result = .obj [("success", .bool false), ("error", .str msg),
                           ("message", .str (toolErrorHint toolUse.name))])) ∧
    (∀ (providerId model : String) (messages : List LLMMessage) (tools : List Tool)
       (nameToInstanceId : List (String × String)) (actionContext : ToolContext)
       (plugins : PluginsMap) (options : GenOptions) (entry : InstanceEntry) (llm : LLMCap),
       jsGet plugins providerId = some entry → entry.enabled = true →
       entry.plugin.llm = some llm →
       ∃ r, (generateWithTools providerId model messages tools nameToInstanceId
               actionContext plugins options).1 = .ok r) := by
  constructor
  · intro nameToInstanceId actionContext plugins messages usages events toolUse
    refine ⟨(toolCallResult nameToInstanceId actionContext plugins toolUse).1,
            (toolCallResult nameToInstanceId actionContext plugins toolUse).2.1,
            rfl, ?_, ?_⟩
    · intro hnone
      simp [toolCallResult, hnone]
    · intro instanceId msg hsome herr
      simp [toolCallResult, hsome, herr]
  · intro providerId model messages tools nameToInstanceId actionContext plugins options
      entry llm hget hen hllm
    simp [generateWithTools, hget, hen, hllm]

/-- Witness for C2: a concrete registry with a live enabled provider on
which `generateWithTools` returns a result. -/
theorem claim2_tool_failure_isolation_witness :
    ∃ r, (generateWithTools "p" "m" [] [] [] fxContext fxPluginsProvider {}).1 =
          .ok r :=
  claim2_tool_failure_isolation.2 "p" "m" [] [] [] fxContext fxPluginsProvider {}
    fxPlainProviderEntry fxLLMPlain rfl rfl rfl

/-! ### Claim C5 — tool resolution and last-write-wins -/

theorem optionOr_none_right {α : Type} (x : Option α) : optionOr x none = x := by
  cases x <;> rfl

theorem jsGet_foldl_jsSet (id name : String) :
    ∀ (ts : List ToolWithHandler) (m : List (String × String)),
    jsGet (ts.foldl (fun m t => jsSet m t.name id) m) name =
      if ts.any (fun t => t.name == name) then some id else jsGet m name := by
  intro ts
  induction ts with
  | nil => intro m; simp
  | cons t rest ih =>
      intro m
      simp only [List.foldl_cons, List.any_cons]
      rw [ih]
      by_cases h : t.name = name
      · subst h
        simp [jsGet_jsSet_self]
      · rw [jsGet_jsSet_ne m t.name name id (fun hh => h hh.symm)]
        simp [h]

theorem resolveStep_fst (plugins : PluginsMap) (acc : List Tool × List (String × String))
    (id : String) :
    (resolveStep plugins acc id).1 = acc.1 ++ toTools (qualifyingTools plugins id) := by
  unfold resolveStep qualifyingTools
  cases hget : jsGet plugins id with
  | none => simp [toTools]
  | some entry =>
      cases hen : entry.enabled with
      | false => simp [hen, toTools]
      | true =>
          cases htools : entry.plugin.tools with
          | none => simp [hen, htools, toTools]
          | some ts => simp [hen, htools]

theorem resolveStep_snd_get (plugins : PluginsMap) (acc : List Tool × List (String × String))
    (id name : String) :
    jsGet (resolveStep plugins acc id).2 name =
      if declaresToolName plugins name id then some id else jsGet acc.2 name := by
  unfold resolveStep declaresToolName qualifyingTools
  cases hget : jsGet plugins id with
  | none => simp
  | some entry =>
      cases hen : entry.enabled with
      | false => simp [hen]
      | true =>
          cases htools : entry.plugin.tools with
          | none => simp [hen, htools]
          | some ts => simp [hen, htools, jsGet_foldl_jsSet]

theorem find?_append_singleton {α : Type} (p : α → Bool) (x : α) :
    ∀ l : List α, (l ++ [x]).find? p =
      optionOr (l.find? p) (if p x then some x else none) := by
  intro l
  induction l with
  | nil => simp [List.find?, optionOr]; cases hp : p x <;> simp [List.find?, hp, optionOr]
  | cons y rest ih =>
      cases hy : p y <;> simp [List.find?, hy, ih, optionOr]

theorem getTools_foldl_fst (plugins : PluginsMap) :
    ∀ (actionIds : List String) (acc : List Tool × List (String × String)),
    (actionIds.foldl (resolveStep plugins) acc).1 =
      acc.1 ++ actionIds.flatMap (fun id => toTools (qualifyingTools plugins id)) := by
  intro actionIds
  induction actionIds with
  | nil => intro acc; simp
  | cons id rest ih =>
      intro acc
      simp only [List.foldl_cons, List.flatMap_cons]
      rw [ih, resolveStep_fst]
      simp [List.append_assoc]

theorem getTools_foldl_snd (plugins : PluginsMap) (name : String) :
    ∀ (actionIds : List String) (acc : List Tool × List (String × String)),
    jsGet (actionIds.foldl (resolveStep plugins) acc).2 name =
      optionOr (actionIds.reverse.find? (declaresToolName plugins name))
        (jsGet acc.2 name) := by
  intro actionIds
  induction actionIds with
  | nil => intro acc; simp [optionOr]
  | cons id rest ih =>
      intro acc
      simp only [List.foldl_cons, List.reverse_cons]
      rw [ih, resolveStep_snd_get, find?_append_singleton]
      cases hfound : rest.reverse.find? (declaresToolName plugins name) with
      | some found => simp [optionOr]
      | none =>
          cases hp : declaresToolName plugins name id <;> simp [optionOr, hp]

/-- C5: tool resolution skips each id whose instance is absent, disabled,
or without the Tooling capability (its `qualifyingTools` are empty), and
appends the handler-stripped schemas of the remaining ids in `actionIds`
order; the reverse index maps a tool name to the last id in `actionIds`
order that declares it (last-write-wins), while schemas of every
declaring provider remain in the list. -/
theorem claim5_tool_resolution (actionIds : List String) (plugins : PluginsMap) :
    (getToolsForActionIds actionIds plugins).1 =
      actionIds.flatMap (fun id => toTools (qualifyingTools plugins id)) ∧
    ∀ name, jsGet (getToolsForActionIds actionIds plugins).2 name =
      actionIds.reverse.find? (declaresToolName plugins name) := by
  constructor
  · have h := getTools_foldl_fst plugins actionIds ([], [])
    simpa [getToolsForActionIds] using h
  · intro name
    have h := getTools_foldl_snd plugins name actionIds ([], [])
    simpa [getToolsForActionIds, jsGet, optionOr_none_right] using h

/-- C7 amended: disabled instances are filtered out where tools are
resolved — the reverse index built by `getToolsForActionIds` only ever
maps a tool name to a present, enabled, Tooling-capable instance — and
`generateWithTools` refuses a disabled provider; but `executeTool` itself
does not check the `enabled` flag, so a tool call resolved directly
against a disabled instance id still invokes the handler
(see the counterexample). -/
theorem claim7_enabled_checks :
    (∀ (actionIds : List String) (plugins : PluginsMap) (name instanceId : String),
       jsGet (getToolsForActionIds actionIds plugins).2 name = some instanceId →
       ∃ entry, jsGet plugins instanceId = some entry ∧ entry.enabled = true ∧
         entry.plugin.tools.isSome = true) ∧
    (∀ (providerId model : String) (messages : List LLMMessage) (tools : List Tool)
       (nameToInstanceId : List (String × String)) (actionContext : ToolContext)
       (plugins : PluginsMap) (options : GenOptions) (entry : InstanceEntry),
       jsGet plugins providerId = some entry → entry.enabled = false →
       (generateWithTools providerId model messages tools nameToInstanceId actionContext
          plugins options).1 = .error "LLM provider not found or disabled") := by
  constructor
  · intro actionIds plugins name instanceId hmap
    rw [getToolsForActionIds, getTools_foldl_snd plugins name actionIds ([], [])] at hmap
    simp only [jsGet, optionOr_none_right] at hmap
    have hp : declaresToolName plugins name instanceId := List.find?_some hmap
    unfold declaresToolName qualifyingTools at hp
    cases hget : jsGet plugins instanceId with
    | none => rw [hget] at hp; simp at hp
    | some entry =>
        rw [hget] at hp
        cases hen : entry.enabled with
        | false => simp [hen] at hp
        | true =>
            cases htools : entry.plugin.tools with
            | none => simp [hen, htools] at hp
            | some ts => exact ⟨entry, rfl, hen, by rw [htools]; rfl⟩
  · intro providerId model messages tools nameToInstanceId actionContext plugins options
      entry hget hen
    simp [generateWithTools, hget, hen]

/-- Witness for the amended C7 at concrete registries. -/
theorem claim7_enabled_checks_witness :
    (∃ entry, jsGet fxPluginsPT "t1" = some entry ∧ entry.enabled = true ∧
       entry.plugin.tools.isSome = true) ∧
    (generateWithTools "t1" "m" [] [] [] fxContext fxPluginsDisabledTool {}).1 =
      .error "LLM provider not found or disabled" :=
  ⟨claim7_enabled_checks.1 ["t1"] fxPluginsPT "echo" "t1" rfl,
   claim7_enabled_checks.2 "t1" "m" [] [] [] fxContext fxPluginsDisabledTool {}
     fxDisabledToolEntry rfl rfl⟩

/-! ### Claim C1 — loop termination within `maxIterations + 1` calls -/

theorem genCallCount_executeTool (instanceId : String) (toolUse : ToolUse)
    (context : ToolContext) (plugins : PluginsMap) :
    genCallCount (executeTool instanceId toolUse context plugins).events = 0 := by
  unfold executeTool
  repeat' split
  all_goals simp [genCallCount, isGenerateCall]

theorem genCallCount_toolCallResult (nameToInstanceId : List (String × String))
    (actionContext : ToolContext) (plugins : PluginsMap) (toolUse : ToolUse) :
    genCallCount (toolCallResult nameToInstanceId actionContext plugins toolUse).2.2 = 0 := by
  simp only [toolCallResult]
  split
  · rfl
  · split <;> simp [genCallCount_executeTool]

theorem filter_isGenerateCall_toolCallResult (nameToInstanceId : List (String × String))
    (actionContext : ToolContext) (plugins : PluginsMap) (toolUse : ToolUse) :
    (toolCallResult nameToInstanceId actionContext plugins toolUse).2.2.filter
        isGenerateCall = [] := by
  have h := genCallCount_toolCallResult nameToInstanceId actionContext plugins toolUse
  simpa [genCallCount, List.length_eq_zero] using h

theorem genCallCount_processToolUse_foldl (nameToInstanceId : List (String × String))
    (actionContext : ToolContext) (plugins : PluginsMap) :
    ∀ (toolUses : List ToolUse)
      (acc : List LLMMessage × List ConversationToolUsage × List Event),
    genCallCount
        (toolUses.foldl (processToolUse nameToInstanceId actionContext plugins) acc).2.2 =
      genCallCount acc.2.2 := by
  intro toolUses
  induction toolUses with
  | nil => intro acc; rfl
  | cons toolUse rest ih =>
      intro acc
      rw [List.foldl_cons, ih]
      obtain ⟨messages, usages, events⟩ := acc
      have h := filter_isGenerateCall_toolCallResult nameToInstanceId actionContext
        plugins toolUse
      simp [processToolUse, genCallCount, List.filter_append, h]

theorem genCallCount_cons_append (t : Option (List Tool)) (r : LLMResponse)
    (A B : List Event) :
    genCallCount (Event.generateCall t r :: (A ++ B)) =
      1 + genCallCount A + genCallCount B := by
  simp only [genCallCount, List.filter_cons, List.filter_append, List.length_append,
    isGenerateCall]
  simp
  omega

theorem toolLoop_genCallCount_le (llm : LLMCap) (model : String)
    (genOptions options : GenOptions) (nameToInstanceId : List (String × String))
    (actionContext : ToolContext) (plugins : PluginsMap) :
    ∀ (fuel : Nat) (messages : List LLMMessage) (usages : List ConversationToolUsage),
    genCallCount (toolLoop llm model genOptions options nameToInstanceId actionContext
        plugins fuel messages usages).2 ≤ fuel + 1 := by
  intro fuel
  induction fuel with
  | zero =>
      intro messages usages
      simp [toolLoop, genCallCount, isGenerateCall]
  | succ fuel ih =>
      intro messages usages
      cases hempty : (llm.generate model messages genOptions).toolUses.isEmpty with
      | true => simp [toolLoop, hempty, genCallCount, isGenerateCall]
      | false =>
          simp only [toolLoop, hempty, Bool.false_eq_true, if_false]
          rw [genCallCount_cons_append,
            genCallCount_processToolUse_foldl nameToInstanceId actionContext plugins]
          have h0 : genCallCount ([] : List Event) = 0 := rfl
          rw [h0]
          exact Nat.le_trans (Nat.add_le_add_left (ih _ _) (1 + 0)) (by omega)

theorem toolLoop_firstAllTools (llm : LLMCap) (model : String)
    (genOptions options : GenOptions) (nameToInstanceId : List (String × String))
    (actionContext : ToolContext) (plugins : PluginsMap) :
    ∀ (fuel : Nat) (messages : List LLMMessage) (usages : List ConversationToolUsage),
    (((toolLoop llm model genOptions options nameToInstanceId actionContext plugins
          fuel messages usages).2.filter isGenerateCall).take fuel).all callHasToolUses =
        true →
    genCallCount (toolLoop llm model genOptions options nameToInstanceId actionContext
        plugins fuel messages usages).2 = fuel + 1 ∧
    (toolLoop llm model genOptions options nameToInstanceId actionContext plugins
        fuel messages usages).2.getLast? =
      some (.generateCall none
        (toolLoop llm model genOptions options nameToInstanceId actionContext plugins
            fuel messages usages).1.response) := by
  intro fuel
  induction fuel with
  | zero =>
      intro messages usages _
      constructor
      · simp [toolLoop, genCallCount, isGenerateCall]
      · simp [toolLoop]
  | succ fuel ih =>
      intro messages usages hall
      cases hempty : (llm.generate model messages genOptions).toolUses.isEmpty with
      | true =>
          exfalso
          simp only [toolLoop, hempty, if_true] at hall
          simp [isGenerateCall, callHasToolUses, hempty] at hall
      | false =>
          simp only [toolLoop, hempty, Bool.false_eq_true, if_false] at hall ⊢
          have hfold := genCallCount_processToolUse_foldl nameToInstanceId actionContext
            plugins (llm.generate model messages genOptions).toolUses
            (messages ++ [assistantTurnOf (llm.generate model messages genOptions)],
             usages, ([] : List Event))
          generalize hstep :
            (llm.generate model messages genOptions).toolUses.foldl
              (processToolUse nameToInstanceId actionContext plugins)
              (messages ++ [assistantTurnOf (llm.generate model messages genOptions)],
               usages, ([] : List Event)) = step at hall hfold ⊢
          have hnil : step.2.2.filter isGenerateCall = [] := by
            simpa [genCallCount, List.length_eq_zero] using hfold
          rw [List.filter_cons] at hall
          simp only [isGenerateCall, if_true, List.filter_append, hnil,
            List.nil_append, List.take_succ_cons, List.all_cons] at hall
          have hparts := Bool.and_eq_true _ _ |>.mp hall
          have hcall := hparts.1
          have hrest := hparts.2
          have ihh := ih step.1 step.2.1 hrest
          have hlater_ne : (toolLoop llm model genOptions options nameToInstanceId
              actionContext plugins fuel step.1 step.2.1).2 ≠ [] := by
            intro hnilL
            have hcnt := ihh.1
            rw [hnilL] at hcnt
            simp [genCallCount] at hcnt
          constructor
          · rw [genCallCount_cons_append]
            have hz : genCallCount step.2.2 = 0 := by
              simp [genCallCount, hnil]
            rw [hz, ihh.1]
            omega
          · have happ : step.2.2 ++ (toolLoop llm model genOptions options nameToInstanceId
                actionContext plugins fuel step.1 step.2.1).2 ≠ [] := by
              intro hx
              exact hlater_ne (List.append_eq_nil.mp hx).2
            rw [show (Event.generateCall genOptions.tools
                  (llm.generate model messages genOptions) ::
                  (step.2.2 ++ (toolLoop llm model genOptions options nameToInstanceId
                    actionContext plugins fuel step.1 step.2.1).2)) =
                [Event.generateCall genOptions.tools
                  (llm.generate model messages genOptions)] ++
                  (step.2.2 ++ (toolLoop llm model genOptions options nameToInstanceId
                    actionContext plugins fuel step.1 step.2.1).2) from rfl,
              List.getLast?_append_of_ne_nil _ happ,
              List.getLast?_append_of_ne_nil _ hlater_ne]
            exact ihh.2

/-- C1: for a provider id resolving to a live, enabled, Model-capable
instance, `generateWithTools` records at most
`MAX_TOOL_LOOP_ITERATIONS + 1 = 11` `generate` calls for every sequence of
model responses; and whenever the first `MAX_TOOL_LOOP_ITERATIONS`
responses of the run all carry tool-use requests, exactly 11 calls occur,
the final call is issued with no tool schemas attached (`tools`
undefined) and its response is the one returned — the iteration limit is
never surfaced as an error. -/
theorem claim1_loop_termination (providerId model : String)
    (messages : List LLMMessage) (tools : List Tool)
    (nameToInstanceId : List (String × String)) (actionContext : ToolContext)
    (plugins : PluginsMap) (options : GenOptions) (entry : InstanceEntry) (llm : LLMCap)
    (hget : jsGet plugins providerId = some entry)
    (hen : entry.enabled = true)
    (hllm : entry.plugin.llm = some llm) :
    genCallCount (generateWithTools providerId model messages tools nameToInstanceId
        actionContext plugins options).2 ≤ MAX_TOOL_LOOP_ITERATIONS + 1 ∧
    ((((generateWithTools providerId model messages tools nameToInstanceId actionContext
          plugins options).2.filter isGenerateCall).take MAX_TOOL_LOOP_ITERATIONS).all
        callHasToolUses = true →
      genCallCount (generateWithTools providerId model messages tools nameToInstanceId
          actionContext plugins options).2 = MAX_TOOL_LOOP_ITERATIONS + 1 ∧
      ∃ r u, (generateWithTools providerId model messages tools nameToInstanceId
          actionContext plugins options).1 = .ok ⟨r, u⟩ ∧
        (generateWithTools providerId model messages tools nameToInstanceId actionContext
            plugins options).2.getLast? = some (.generateCall none r)) := by
  have hred : generateWithTools providerId model messages tools nameToInstanceId
      actionContext plugins options =
      (.ok (toolLoop llm model
          { options with tools := if tools.length > 0 then some tools else none }
          options nameToInstanceId actionContext plugins MAX_TOOL_LOOP_ITERATIONS
          messages []).1,
       (toolLoop llm model
          { options with tools := if tools.length > 0 then some tools else none }
          options nameToInstanceId actionContext plugins MAX_TOOL_LOOP_ITERATIONS
          messages []).2) := by
    simp [generateWithTools, hget, hen, hllm]
  rw [hred]
  constructor
  · exact toolLoop_genCallCount_le llm model _ options nameToInstanceId actionContext
      plugins MAX_TOOL_LOOP_ITERATIONS messages []
  · intro hall
    have h := toolLoop_firstAllTools llm model
      { options with tools := if tools.length > 0 then some tools else none }
      options nameToInstanceId actionContext plugins MAX_TOOL_LOOP_ITERATIONS
      messages [] hall
    refine ⟨h.1, (toolLoop llm model
        { options with tools := if tools.length > 0 then some tools else none }
        options nameToInstanceId actionContext plugins MAX_TOOL_LOOP_ITERATIONS
        messages []).1.response,
      (toolLoop llm model
        { options with tools := if tools.length > 0 then some tools else none }
        options nameToInstanceId actionContext plugins MAX_TOOL_LOOP_ITERATIONS
        messages []).1.toolUsages, rfl, h.2⟩

/-- Witness for C1 at a concrete enabled provider. -/
theorem claim1_loop_termination_witness :
    genCallCount (generateWithTools "p" "m" [] [] [] fxContext fxPluginsProvider {}).2 ≤
        MAX_TOOL_LOOP_ITERATIONS + 1 :=
  (claim1_loop_termination "p" "m" [] [] [] fxContext fxPluginsProvider {}
    fxPlainProviderEntry fxLLMPlain rfl rfl rfl).1

/-! ### Claim C8 — `generateWithProvider` and the no-tools path -/

/-- C8 counterexample: with no tools, no reverse index and no context
supplied, but an enabled tool plugin in the registry,
`generateWithProvider` auto-attaches that plugin's tools and runs the tool
loop: the run records two `generate` calls and one handler invocation. -/
theorem claim8_counterexample :
    genCallCount (generateWithProvider "p" "m"
        [{ role := .user, content := "hello" }] none fxPluginsPT).2 = 2 ∧
    handlerInvokedCount (generateWithProvider "p" "m"
        [{ role := .user, content := "hello" }] none fxPluginsPT).2 = 1 :=
  ⟨rfl, rfl⟩

/-- C8 amended: `generateWithProvider` is a plain single-call, no-tools
path — one `generate` call with no tool schemas attached and no handler
execution — only when the caller supplies neither tools nor a reverse
index **and** the registry holds no enabled tool-declaring plugin;
otherwise it auto-attaches the tools of all enabled tool plugins and runs
the tool loop (see the counterexample). -/
theorem claim8_no_tools_path (instanceId model : String) (messages : List LLMMessage)
    (options : Option GWPOptions) (plugins : PluginsMap) (entry : InstanceEntry)
    (llm : LLMCap)
    (hget : jsGet plugins instanceId = some entry)
    (hllm : entry.plugin.llm = some llm)
    (hen : entry.enabled = true)
    (htools : (options.getD {}).tools = none)
    (hidx : (options.getD {}).toolNameToInstanceId = none)
    (hnone : getAllEnabledPluginWithToolIds plugins = []) :
    generateWithProvider instanceId model messages options plugins =
      (.ok (llm.generate model messages (options.getD {}).toGenOptions),
       [.generateCall none (llm.generate model messages (options.getD {}).toGenOptions)]) ∧
    ((options.getD {}).toGenOptions).tools = none := by
  constructor
  · cases hctx : (options.getD {}).actionContext with
    | none =>
        simp [generateWithProvider, hget, hllm, hen, htools, hidx, hnone, hctx,
          toolsLenFalsy, getToolsForActionIds]
    | some c =>
        simp [generateWithProvider, hget, hllm, hen, htools, hidx, hnone, hctx,
          toolsLenFalsy]
  · simp [GWPOptions.toGenOptions, htools]

/-- Witness for the amended C8: a registry with no enabled tool plugins. -/
theorem claim8_no_tools_path_witness :
    generateWithProvider "p" "m" [] none fxPluginsProvider =
      (.ok (fxLLMPlain.generate "m" [] (GWPOptions.toGenOptions {})),
       [.generateCall none (fxLLMPlain.generate "m" [] (GWPOptions.toGenOptions {}))]) ∧
    (GWPOptions.toGenOptions {}).tools = none :=
  claim8_no_tools_path "p" "m" [] none fxPluginsProvider fxPlainProviderEntry fxLLMPlain
    rfl rfl rfl rfl rfl rfl

/-! ### Claim C4 — registry replace semantics -/

theorem keyCount_jsDelete {α : Type} (m : List (String × α)) (k : String) :
    keyCount (jsDelete m k) k = 0 := by
  induction m with
  | nil => rfl
  | cons hd tl ih =>
      obtain ⟨k', v⟩ := hd
      by_cases h : k' = k
      · simp [jsDelete, h, ih]
      · simp [jsDelete, keyCount, List.countP_cons, h] at ih ⊢
        exact ih

theorem jsSet_eq_append {α : Type} (k : String) (v : α) :
    ∀ m : List (String × α), keyCount m k = 0 → jsSet m k v = m ++ [(k, v)] := by
  intro m
  induction m with
  | nil => intro _; rfl
  | cons hd tl ih =>
      intro h
      obtain ⟨k', v'⟩ := hd
      by_cases hk : k' = k
      · exfalso
        simp [keyCount, List.countP_cons, hk] at h
      · simp only [keyCount, List.countP_cons] at h
        simp only [hk, beq_iff_eq, if_false] at h
        simp [jsSet, hk, ih (by simpa [keyCount] using h)]

theorem keyCount_set_delete {α : Type} (m : List (String × α)) (k : String) (v : α) :
    keyCount (jsSet (jsDelete m k) k v) k = 1 := by
  rw [jsSet_eq_append k v (jsDelete m k) (keyCount_jsDelete m k)]
  simp [keyCount, List.countP_append, List.countP_cons]
  have h := keyCount_jsDelete m k
  simpa [keyCount] using h

/-- Shape of `addPlugin` when the id is already present: teardown of the
old entry, then construction and installation of the replacement. -/
theorem addPlugin_existing (catalog : List (String × String))
    (factory : String → Config → PluginBase) (type : String) (config : Config)
    (instanceId : String) (st : RegState) (catalogEntry : String × String)
    (old : InstanceEntry)
    (hcat : catalog.find? (fun c => c.1 = type) = some catalogEntry)
    (hold : jsGet st.plugins instanceId = some old) :
    addPlugin catalog factory type config instanceId st = .ok
      ({ plugins := jsSet (jsDelete st.plugins instanceId) instanceId
            { id := instanceId, type := type, name := catalogEntry.2, config := config,
              enabled := true,
              plugin := { factory type config with objId := st.nextObjId } },
          nextObjId := st.nextObjId + 1,
          events := st.events ++ teardownExisting old ++
            [RegEvent.construct st.nextObjId] ++
            (if ((factory type config).connector).isSome then
               [RegEvent.wireOnMessage st.nextObjId, RegEvent.connect st.nextObjId]
             else []) },
       { id := instanceId, type := type, name := catalogEntry.2, config := config,
         enabled := true,
         plugin := { factory type config with objId := st.nextObjId } }) := by
  cases hconn : (factory type config).connector with
  | none => simp [addPlugin, hcat, hold, hconn]
  | some c => simp [addPlugin, hcat, hold, hconn]

/-- C4: calling `addPlugin` with an id already present yields exactly one
live entry under that id afterward — the newly constructed object (fresh
`objId`) — and the event trace extends by the old object's teardown
(disconnect when connected, then `shutdown()`), then the construction of
the replacement, then (for connector plugins) its wiring and `connect()`:
the old object's shutdown and disconnect strictly precede the new
object's construction and connect. -/
theorem claim4_replace_semantics (catalog : List (String × String))
    (factory : String → Config → PluginBase) (type : String) (config : Config)
    (instanceId : String) (st : RegState) (catalogEntry : String × String)
    (old : InstanceEntry)
    (hcat : catalog.find? (fun c => c.1 = type) = some catalogEntry)
    (hold : jsGet st.plugins instanceId = some old) :
    ∃ st' newEntry,
      addPlugin catalog factory type config instanceId st = .ok (st', newEntry) ∧
      newEntry.plugin.objId = st.nextObjId ∧
      jsGet st'.plugins instanceId = some newEntry ∧
      keyCount st'.plugins instanceId = 1 ∧
      st'.events = st.events ++ teardownExisting old ++
        [RegEvent.construct st.nextObjId] ++
        (if ((factory type config).connector).isSome then
           [RegEvent.wireOnMessage st.nextObjId, RegEvent.connect st.nextObjId]
         else []) := by
  refine ⟨_, _,
    addPlugin_existing catalog factory type config instanceId st catalogEntry old
      hcat hold, rfl, ?_, ?_, rfl⟩
  · exact jsGet_jsSet_self _ _ _
  · exact keyCount_set_delete _ _ _

/-- Witness for C4: replacing a connected connector instance. -/
theorem claim4_replace_semantics_witness :
    ∃ st' newEntry,
      addPlugin fxCatalog fxFactory "discord" [] "c1" fxRegState = .ok (st', newEntry) ∧
      newEntry.plugin.objId = fxRegState.nextObjId ∧
      jsGet st'.plugins "c1" = some newEntry ∧
      keyCount st'.plugins "c1" = 1 ∧
      st'.events = fxRegState.events ++ teardownExisting fxOldEntry ++
        [RegEvent.construct fxRegState.nextObjId] ++
        (if ((fxFactory "discord" []).connector).isSome then
           [RegEvent.wireOnMessage fxRegState.nextObjId,
            RegEvent.connect fxRegState.nextObjId]
         else []) :=
  claim4_replace_semantics fxCatalog fxFactory "discord" [] "c1" fxRegState
    ("discord", "Discord") fxOldEntry rfl rfl

/-! ### Claim C10 — `generateWithTools` never mutates the caller's array -/

theorem getD_append_lt {α : Type} (d : α) :
    ∀ (l l' : List α) (n : Nat), n < l.length → (l ++ l').getD n d = l.getD n d := by
  intro l
  induction l with
  | nil => intro l' n h; simp at h
  | cons a tl ih =>
      intro l' n h
      cases n with
      | zero => rfl
      | succ n =>
          simp only [List.cons_append, List.getD_cons_succ]
          exact ih l' n (by simpa using h)

theorem getD_set_ne {α : Type} (d a : α) :
    ∀ (l : List α) (i j : Nat), j ≠ i → (l.set i a).getD j d = l.getD j d := by
  intro l
  induction l with
  | nil => intro i j _; rfl
  | cons x tl ih =>
      intro i j h
      cases i with
      | zero =>
          cases j with
          | zero => exact absurd rfl h
          | succ j => simp [List.set]
      | succ i =>
          cases j with
          | zero => simp [List.set]
          | succ j =>
              simp only [List.set, List.getD_cons_succ]
              exact ih i j (fun hh => h (by rw [hh]))

theorem ArrayStore.read_alloc_lt (st : ArrayStore) (xs : List LLMMessage) (h : Nat)
    (hlt : h < st.arrays.length) : ((st.alloc xs).1).read h = st.read h := by
  simp only [ArrayStore.alloc, ArrayStore.read]
  exact getD_append_lt [] st.arrays [xs] h hlt

theorem ArrayStore.length_alloc (st : ArrayStore) (xs : List LLMMessage) :
    ((st.alloc xs).1).arrays.length = st.arrays.length + 1 := by
  simp [ArrayStore.alloc]

theorem ArrayStore.length_push (st : ArrayStore) (h : Nat) (x : LLMMessage) :
    (st.push h x).arrays.length = st.arrays.length := by
  simp [ArrayStore.push]

theorem ArrayStore.read_push_ne (st : ArrayStore) (h h' : Nat) (x : LLMMessage)
    (hne : h' ≠ h) : (st.push h x).read h' = st.read h' := by
  simp only [ArrayStore.push, ArrayStore.read]
  exact getD_set_ne [] _ st.arrays h h' hne

theorem processToolUseST_foldl_frame (nameToInstanceId : List (String × String))
    (actionContext : ToolContext) (plugins : PluginsMap) (hCur : Nat) :
    ∀ (toolUses : List ToolUse) (acc : ArrayStore × List ConversationToolUsage),
    ((toolUses.foldl (processToolUseST nameToInstanceId actionContext plugins hCur)
        acc).1).arrays.length = acc.1.arrays.length ∧
    ∀ h, h ≠ hCur →
      ((toolUses.foldl (processToolUseST nameToInstanceId actionContext plugins hCur)
          acc).1).read h = acc.1.read h := by
  intro toolUses
  induction toolUses with
  | nil => intro acc; exact ⟨rfl, fun _ _ => rfl⟩
  | cons toolUse rest ih =>
      intro acc
      rw [List.foldl_cons]
      have hstep := ih (processToolUseST nameToInstanceId actionContext plugins hCur
        acc toolUse)
      constructor
      · rw [hstep.1]
        simp [processToolUseST, ArrayStore.length_push]
      · intro h hne
        rw [hstep.2 h hne]
        simp only [processToolUseST]
        exact ArrayStore.read_push_ne _ _ _ _ hne

theorem toolLoopST_frame (llm : LLMCap) (model : String)
    (genOptions options : GenOptions) (nameToInstanceId : List (String × String))
    (actionContext : ToolContext) (plugins : PluginsMap) :
    ∀ (fuel : Nat) (store : ArrayStore) (hCur : Nat)
      (usages : List ConversationToolUsage) (h : Nat),
      h < store.arrays.length → h ≠ hCur →
      ((toolLoopST llm model genOptions options nameToInstanceId actionContext plugins
          fuel store hCur usages).1).read h = store.read h := by
  intro fuel
  induction fuel with
  | zero => intro store hCur usages h _ _; rfl
  | succ fuel ih =>
      intro store hCur usages h hlt hne
      cases hempty : (llm.generate model (store.read hCur) genOptions).toolUses.isEmpty with
      | true => simp [toolLoopST, hempty]
      | false =>
          simp only [toolLoopST, hempty, Bool.false_eq_true, if_false]
          generalize halloc : store.alloc (store.read hCur ++
            [assistantTurnOf (llm.generate model (store.read hCur) genOptions)]) = allocated
          have hlen : allocated.1.arrays.length = store.arrays.length + 1 := by
            rw [← halloc]; exact ArrayStore.length_alloc _ _
          have hCur2 : allocated.2 = store.arrays.length := by rw [← halloc]; rfl
          have hreadp : allocated.1.read h = store.read h := by
            rw [← halloc]; exact ArrayStore.read_alloc_lt store _ h hlt
          generalize hstepv : List.foldl
            (processToolUseST nameToInstanceId actionContext plugins allocated.2)
            (allocated.1, usages)
            (llm.generate model (store.read hCur) genOptions).toolUses = stepr
          have hfold := processToolUseST_foldl_frame nameToInstanceId actionContext
            plugins allocated.2
            (llm.generate model (store.read hCur) genOptions).toolUses
            (allocated.1, usages)
          rw [hstepv] at hfold
          have hneh : h ≠ allocated.2 := by
            rw [hCur2]
            exact Nat.ne_of_lt hlt
          have hrec := ih stepr.1 allocated.2 stepr.2 h
            (by rw [hfold.1, hlen]; omega) hneh
          rw [hrec, hfold.2 h hneh, hreadp]

/-- C10: the caller's messages array (store cell `hMessages`) holds
exactly its original elements after `generateWithTools` returns, whether
the provider check throws or the loop runs: all mutation happens on the
freshly allocated copy `currentMessages = [...messages]` and on the fresh
arrays rebound per iteration. -/
theorem claim10_no_caller_mutation (providerId model : String) (store : ArrayStore)
    (hMessages : Nat) (tools : List Tool) (nameToInstanceId : List (String × String))
    (actionContext : ToolContext) (plugins : PluginsMap) (options : GenOptions)
    (hvalid : hMessages < store.arrays.length) :
    ((generateWithToolsST providerId model store hMessages tools nameToInstanceId
        actionContext plugins options).1).read hMessages = store.read hMessages := by
  unfold generateWithToolsST
  split
  · rfl
  · split
    · rfl
    · split
      · rfl
      · generalize halloc : store.alloc (store.read hMessages) = allocated
        have hlen : allocated.1.arrays.length = store.arrays.length + 1 := by
          rw [← halloc]; exact ArrayStore.length_alloc _ _
        have hCur2 : allocated.2 = store.arrays.length := by rw [← halloc]; rfl
        have hreadp : allocated.1.read hMessages = store.read hMessages := by
          rw [← halloc]; exact ArrayStore.read_alloc_lt store _ hMessages hvalid
        rw [toolLoopST_frame _ _ _ _ _ _ _ MAX_TOOL_LOOP_ITERATIONS allocated.1
            allocated.2 [] hMessages (by rw [hlen]; omega)
            (by rw [hCur2]; exact Nat.ne_of_lt hvalid), hreadp]

/-- Witness for C10 at a one-cell store. -/
theorem claim10_no_caller_mutation_witness :
    ((generateWithToolsST "p" "m" ⟨[[{ role := .user, content := "hello" }]]⟩ 0
        [] [] fxContext fxPluginsProvider {}).1).read 0 =
      ArrayStore.read ⟨[[{ role := .user, content := "hello" }]]⟩ 0 :=
  claim10_no_caller_mutation "p" "m" ⟨[[{ role := .user, content := "hello" }]]⟩ 0
    [] [] fxContext fxPluginsProvider {} (by simp)

/-! ### Claim C9 — bounded rolling-context cache -/

theorem slice_eq_takeLastN {α : Type} (n : Nat) (l : List α) :
    (if l.length > n then l.drop (l.length - n) else l) = takeLastN n l := by
  unfold takeLastN
  by_cases h : l.length > n
  · simp [h]
  · have hz : l.length - n = 0 := by omega
    simp [h, hz]

theorem takeLastN_length_le {α : Type} (n : Nat) (l : List α) :
    (takeLastN n l).length ≤ n := by
  unfold takeLastN
  simp
  omega

theorem rollCache_get (cache : ConnectorCache) (cacheKey k : String)
    (u a : LLMMessage) (v : List LLMMessage)
    (hget : jsGet (rollCache cache cacheKey u a) k = some v) :
    (k = cacheKey ∧ v = takeLastN MAX_CACHED_MESSAGES
        (((jsGet cache cacheKey).getD []) ++ [u, a])) ∨
    jsGet cache k = some v := by
  by_cases hk : k = cacheKey
  · subst hk
    left
    refine ⟨rfl, ?_⟩
    unfold rollCache at hget
    rw [jsGet_jsSet_self] at hget
    rw [← slice_eq_takeLastN]
    exact (Option.some_inj.mp hget).symm
  · right
    unfold rollCache at hget
    rw [jsGet_jsSet_ne _ _ _ _ hk] at hget
    exact hget

/-- The handler either leaves the cache untouched (early exits and the
error path) or applies `rollCache` for the message's key with one
user-role and one assistant-role message. -/
theorem handleConnectorMessage_cache (entry : InstanceEntry) (message : Message)
    (plugins : PluginsMap) (connectorRecordAssistant : Option String)
    (assistantDb : String → Option AssistantRec) (cache : ConnectorCache) :
    (handleConnectorMessage entry message plugins connectorRecordAssistant
        assistantDb cache).cache = cache ∨
    ∃ u a, u.role = Role.user ∧ a.role = Role.assistant ∧
      (handleConnectorMessage entry message plugins connectorRecordAssistant
          assistantDb cache).cache =
        rollCache cache (entry.id ++ ":" ++ message.channelId) u a := by
  unfold handleConnectorMessage
  dsimp only
  repeat' split
  all_goals first
  | (left; rfl)
  | (right; exact ⟨_, _, rfl, rfl, rfl⟩)

/-- C9: assuming every cached list respects the cap before the call, every
cached list respects the cap `MAX_CACHED_MESSAGES = 30` after the call;
and every entry is either untouched or is the message's key updated to the
last 30 elements of the previous list extended with the new user message
and the new assistant message (oldest entries dropped first). -/
theorem claim9_cache_bound (entry : InstanceEntry) (message : Message)
    (plugins : PluginsMap) (connectorRecordAssistant : Option String)
    (assistantDb : String → Option AssistantRec) (cache : ConnectorCache)
    (hinv : ∀ k v, jsGet cache k = some v → v.length ≤ MAX_CACHED_MESSAGES) :
    (∀ k v, jsGet (handleConnectorMessage entry message plugins
        connectorRecordAssistant assistantDb cache).cache k = some v →
        v.length ≤ MAX_CACHED_MESSAGES) ∧
    (∀ k v, jsGet (handleConnectorMessage entry message plugins
        connectorRecordAssistant assistantDb cache).cache k = some v →
        jsGet cache k = some v ∨
        (k = entry.id ++ ":" ++ message.channelId ∧
         ∃ u a, u.role = Role.user ∧ a.role = Role.assistant ∧
           v = takeLastN MAX_CACHED_MESSAGES
                 (((jsGet cache k).getD []) ++ [u, a]))) := by
  obtain hc | ⟨u, a, hu, ha, hc⟩ :=
    handleConnectorMessage_cache entry message plugins connectorRecordAssistant
      assistantDb cache
  · rw [hc]
    exact ⟨hinv, fun k v h => .inl h⟩
  · rw [hc]
    constructor
    · intro k v hget
      obtain ⟨hk, hv⟩ | hold := rollCache_get cache _ k u a v hget
      · rw [hv]
        exact takeLastN_length_le _ _
      · exact hinv k v hold
    · intro k v hget
      obtain ⟨hk, hv⟩ | hold := rollCache_get cache _ k u a v hget
      · right
        subst hk
        exact ⟨rfl, u, a, hu, ha, hv⟩
      · left
        exact hold

/-- Witness for C9: the cache entry written for the message's key on an
initially empty cache respects the cap. -/
theorem claim9_cache_bound_witness :
    [({ role := Role.user, content := "hello" } : LLMMessage),
     { role := Role.assistant, content := "hi" }].length ≤ MAX_CACHED_MESSAGES :=
  (claim9_cache_bound fxConnectorEntry fxMessage fxPluginsProvider (some "a1")
      fxAssistantDb [] (fun _ _ h => nomatch h)).1 "c1:chan" _ rfl

/-! ### Claim C3 — typing indicator on exit paths -/

/-- C3 evaluation: on a successful generation (enabled connector with
`sendTyping`, assistant bound to a live provider), the handler exits with
the typing interval still armed and no `typingStopped` event — the
heartbeat is not cancelled on the success path — while on the error path
(provider missing) `typingStopped` is emitted before the error reply. -/
theorem claim3_typing_indicator_bug :
    (handleConnectorMessage fxConnectorEntry fxMessage fxPluginsProvider (some "a1")
        fxAssistantDb []).typingActiveAtExit = true ∧
    (handleConnectorMessage fxConnectorEntry fxMessage fxPluginsProvider (some "a1")
        fxAssistantDb []).events =
      [.sendTyping, .typingStarted, .sendMessage "chan" "hi", .persist] ∧
    (handleConnectorMessage fxConnectorEntry fxMessage [] (some "a1")
        fxAssistantDb []).events =
      [.sendTyping, .typingStarted, .typingStopped,
       .sendMessage "chan" "Error: LLM provider not found or disabled"] ∧
    (handleConnectorMessage fxConnectorEntry fxMessage [] (some "a1")
        fxAssistantDb []).typingActiveAtExit = false :=
  ⟨rfl, rfl, rfl, rfl⟩

end WhisperWeave
